import Mathlib

/-!
Verification of the accessibility-sidebar widget
(`accessibility-sidebar-enhanced.js`, the dependency-free script variant,
which is textually near-identical to the standalone JSX variant).

The JavaScript source is shallowly embedded below:
* page text is modelled as `List Char` (JS strings),
* the DOM `classList` of `document.body` as a `List String`,
* the React component state as an explicit record `WidgetState`,
* event handlers as pure functions `WidgetState → WidgetState × List Cmd`
  where `Cmd` records the external effects they request
  (`speechSynthesis.cancel()`, alerts, scheduling of the `speakNext` loop),
* the per-session `speakNext` closure (its captured `chunks`,
  `currentIndex` and the `isReadingRef` flag) as a small event-driven
  state machine `SessState` driven by engine callbacks.
-/

namespace AccessibilitySidebar

/-! ## JavaScript string primitives used by `handleReadAloud` -/

/-- Whitespace recognised by JS `String.prototype.trim` (the characters
that can actually occur in this widget's text pipeline). -/
def isJsSpace (c : Char) : Bool :=
  c = ' ' ∨ c = '\t' ∨ c = '\n' ∨ c = '\r'

/-- JS `String.prototype.trim`: drop whitespace from both ends. -/
def jsTrim (l : List Char) : List Char :=
  ((l.dropWhile isJsSpace).reverse.dropWhile isJsSpace).reverse

/-- The sentence-terminator class `[\.!?]` of the chunking regex. -/
def isSentenceTerm (c : Char) : Bool :=
  c = '.' ∨ c = '!' ∨ c = '?'

/-- Dropping a prefix never lengthens a list. -/
theorem length_dropWhile_le (p : Char → Bool) (l : List Char) :
    (l.dropWhile p).length ≤ l.length := by
  induction l with
  | nil => simp
  | cons c cs ih =>
    by_cases h : p c
    · simp only [List.dropWhile_cons, h, if_true]
      exact Nat.le_succ_of_le ih
    · simp [List.dropWhile_cons, h]

/-- Scanning loop of the regex matcher, structurally recursive on a fuel
that bounds the number of iterations (every iteration consumes at least
one character, so a fuel of the text length always suffices). -/
def jsMatchSentencesAux : Nat → List Char → List (List Char)
  | 0, _ => []
  | _, [] => []
  | fuel + 1, c :: cs =>
    if isSentenceTerm c then jsMatchSentencesAux fuel cs
    else
      let body := (c :: cs).takeWhile (fun x => !isSentenceTerm x)
      let rest1 := (c :: cs).dropWhile (fun x => !isSentenceTerm x)
      let terms := rest1.takeWhile isSentenceTerm
      let rest2 := rest1.dropWhile isSentenceTerm
      if terms.isEmpty then []
      else (body ++ terms) :: jsMatchSentencesAux fuel rest2

/-- Model: `textContent.match(/[^\.!?]+[\.!?]+/g)`: every match is a maximal run
of non-terminators followed by the adjacent run of terminators; leading
terminators are skipped, and a trailing segment with no terminator is not
matched.  Returns `[]` when the regex finds no match (JS `null`). -/
def jsMatchSentences (text : List Char) : List (List Char) :=
  jsMatchSentencesAux text.length text

/-- Model: `textContent.match(...) || [textContent]`. -/
def sentencesOf (text : List Char) : List (List Char) :=
  let m := jsMatchSentences text
  if m.isEmpty then [text] else m

/-- The `sentences.forEach` accumulation loop of `handleReadAloud`
(lines 224–233 of `accessibility-sidebar-enhanced.js`):
`currentChunk` accumulates sentences greedily; when adding the next
sentence would exceed 200 characters the current chunk is flushed
(trimmed) and the sentence starts a new chunk. -/
def buildChunksAux : List (List Char) → List Char → List (List Char) → List (List Char)
  | [], currentChunk, chunks =>
    if currentChunk.isEmpty then chunks else chunks ++ [jsTrim currentChunk]
  | sentence :: rest, currentChunk, chunks =>
    if 200 < (currentChunk ++ sentence).length then
      buildChunksAux rest sentence
        (if currentChunk.isEmpty then chunks else chunks ++ [jsTrim currentChunk])
    else
      buildChunksAux rest (currentChunk ++ sentence) chunks

/-- The chunk list produced from a sentence list. -/
def buildChunks (sentences : List (List Char)) : List (List Char) :=
  buildChunksAux sentences [] []

/-- Full chunking pipeline of `handleReadAloud` applied to the gathered
`textContent`. -/
def chunksOf (text : List Char) : List (List Char) :=
  buildChunks (sentencesOf text)

/-! ## `Array.prototype.indexOf` -/

/-- JS `indexOf`: index of the first strictly-equal element, `-1` when
absent. -/
def jsIndexOf {α : Type} [DecidableEq α] (x : α) : List α → Int
  | [] => -1
  | a :: as =>
    if a = x then 0
    else
      let r := jsIndexOf x as
      if r = -1 then -1 else r + 1

/-! ## Settings transition functions (§ handleFontSizeChange /
handleContrastToggle / handleLineHeightChange / handleSpeechRateChange) -/

/-- Model: `const newSize = (fontSize + 1) % 3` in `handleFontSizeChange`. -/
def cycleFontSizeLevel (l : Nat) : Nat := (l + 1) % 3

/-- Model: `const newHeight = (lineHeight + 1) % 3` in `handleLineHeightChange`. -/
def cycleLineHeightLevel (l : Nat) : Nat := (l + 1) % 3

/-- Model: `const newState = !highContrast` in `handleContrastToggle`. -/
def toggleContrastValue (b : Bool) : Bool := !b

/-- Model: `const rates = [0.6, 0.8, 1.0, 1.2]`, scaled by ten so that the exact
floating-point literals (all exactly representable and compared with
strict equality by `indexOf`) become naturals. -/
def speechRates : List Nat := [6, 8, 10, 12]

/-- Model: `rates[(rates.indexOf(speechRate) + 1) % rates.length]` in
`handleSpeechRateChange`.  With `indexOf = -1` the index is `0`. -/
def cycleSpeechRateValue (r : Nat) : Nat :=
  speechRates.getD ((jsIndexOf r speechRates + 1) % (speechRates.length : Int)).toNat 0

/-! ## DOM class application (`document.body.classList`) -/

/-- Model: `classList.remove(c)`. -/
def classListRemove (c : String) (l : List String) : List String :=
  l.filter (fun x => x ≠ c)

/-- Model: `classList.add(c)`: a `DOMTokenList` holds no duplicates. -/
def classListAdd (c : String) (l : List String) : List String :=
  if c ∈ l then l else l ++ [c]

/-- Model: `applyFontSizeClass` (lines 82–89): remove both font-size classes,
then add the one implied by `size`. -/
def applyFontSizeClass (size : Nat) (cl : List String) : List String :=
  let cl := classListRemove "font-size-largest" (classListRemove "font-size-larger" cl)
  if size = 1 then classListAdd "font-size-larger" cl
  else if size = 2 then classListAdd "font-size-largest" cl
  else cl

/-- Model: `applyHighContrastClass` (lines 91–97). -/
def applyHighContrastClass (enabled : Bool) (cl : List String) : List String :=
  if enabled then classListAdd "high-contrast" cl
  else classListRemove "high-contrast" cl

/-- Model: `applyLineHeightClass` (lines 99–106). -/
def applyLineHeightClass (height : Nat) (cl : List String) : List String :=
  let cl := classListRemove "line-height-largest" (classListRemove "line-height-larger" cl)
  if height = 1 then classListAdd "line-height-larger" cl
  else if height = 2 then classListAdd "line-height-largest" cl
  else cl

/-- The DOM Effect Applier for a full settings triple: the three helpers
applied in the order the mount effect calls them. -/
def applyAllSettings (fontSize : Nat) (highContrast : Bool) (lineHeight : Nat)
    (cl : List String) : List String :=
  applyLineHeightClass lineHeight
    (applyHighContrastClass highContrast (applyFontSizeClass fontSize cl))

/-- The five style classes the widget owns. -/
def a11yClasses : List String :=
  ["font-size-larger", "font-size-largest", "high-contrast",
   "line-height-larger", "line-height-largest"]

/-- Model: `resetAllSettings`'s `classList.remove(...)` of all five classes. -/
def removeAllA11yClasses (cl : List String) : List String :=
  a11yClasses.foldl (fun acc c => classListRemove c acc) cl

/-! ## Settings persistence (load / save effects, lines 44–79) -/

/-- A JavaScript value as it can appear in a parsed settings record. -/
inductive JSVal
  | num (n : Int)
  | bool (b : Bool)
  | str (s : String)
  | null
deriving DecidableEq, Repr

/-- The parsed `JSON.parse(savedSettings)` record: each field is absent
(`undefined`) or holds an arbitrary stored value. -/
structure StoredRec where
  fontSize : Option JSVal := none
  highContrast : Option JSVal := none
  lineHeight : Option JSVal := none
deriving DecidableEq, Repr

/-- The three persisted in-memory settings after the load effect. -/
structure LoadedSettings where
  fontSize : JSVal
  highContrast : JSVal
  lineHeight : JSVal
deriving DecidableEq, Repr

/-- The `useState` initial values: `0`, `false`, `0`. -/
def defaultSettings : LoadedSettings :=
  { fontSize := JSVal.num 0, highContrast := JSVal.bool false, lineHeight := JSVal.num 0 }

/-- The load effect (lines 44–65).  The argument models
`localStorage.getItem`: `none` is a missing key, `some none` a stored
string on which `JSON.parse` throws (the `catch` leaves the defaults),
and `some (some r)` a successfully parsed record.  Each field present in
`r` (`!== undefined`) is adopted verbatim via `setFontSize` etc.;
absent fields keep their defaults. -/
def loadSettings : Option (Option StoredRec) → LoadedSettings
  | none => defaultSettings
  | some none => defaultSettings
  | some (some r) =>
    { fontSize := r.fontSize.getD (JSVal.num 0),
      highContrast := r.highContrast.getD (JSVal.bool false),
      lineHeight := r.lineHeight.getD (JSVal.num 0) }

/-- Legality predicate of the spec's Settings invariant: levels in
`{0,1,2}`, contrast a boolean. -/
def legalLevelVal (v : JSVal) : Bool :=
  v = JSVal.num 0 ∨ v = JSVal.num 1 ∨ v = JSVal.num 2

/-- Model: `v` is a boolean JS value. -/
def isBoolVal (v : JSVal) : Bool :=
  v = JSVal.bool true ∨ v = JSVal.bool false

/-- All three fields hold legal enumerated values. -/
def legalSettings (s : LoadedSettings) : Bool :=
  legalLevelVal s.fontSize && isBoolVal s.highContrast && legalLevelVal s.lineHeight

/-- The record the save effect (lines 68–79) serialises: exactly the
three fields `{ fontSize, highContrast, lineHeight }`. -/
structure SavedSettings where
  fontSize : Nat
  highContrast : Bool
  lineHeight : Nat
deriving DecidableEq, Repr

/-- The storage key used by both the load and the save effect. -/
def accessibilityStorageKey : String := "accessibilitySettings"

/-! ## The component state (the `useState` hooks, with their initial
values as field defaults) -/

structure WidgetState where
  isPanelOpen : Bool := false
  fontSize : Nat := 0
  highContrast : Bool := false
  lineHeight : Nat := 0
  speechRate : Nat := 8
  speechPitch : Nat := 10
  isReading : Bool := false
  isReadingRef : Bool := false
  readingProgress : Nat := 0
  currentUtterance : Option (List Char) := none
  selectedVoice : Option String := none
  availableRomanianVoices : List String := []
  bodyClasses : List String := []
deriving DecidableEq, Repr

/-- External effects an event handler requests from the browser. -/
inductive Cmd
  | cancel
  | alertUnsupported
  | alertNoContent
  | schedule (chunks : List (List Char))
deriving DecidableEq, Repr

/-- The save effect (lines 68–79): after every change of
`fontSize`/`highContrast`/`lineHeight` the triple is written as one JSON
record under the single key `accessibilitySettings`. -/
def saveSettingsEffect (s : WidgetState) : String × SavedSettings :=
  (accessibilityStorageKey,
   { fontSize := s.fontSize, highContrast := s.highContrast, lineHeight := s.lineHeight })

/-- Model: `handleFontSizeChange` (lines 142–155): cycle the level and rewrite
the body classes (same statements as `applyFontSizeClass`). -/
def handleFontSizeChange (s : WidgetState) : WidgetState :=
  let newSize := cycleFontSizeLevel s.fontSize
  { s with fontSize := newSize, bodyClasses := applyFontSizeClass newSize s.bodyClasses }

/-- Model: `handleContrastToggle` (lines 158–167). -/
def handleContrastToggle (s : WidgetState) : WidgetState :=
  let newState := toggleContrastValue s.highContrast
  { s with highContrast := newState,
           bodyClasses := applyHighContrastClass newState s.bodyClasses }

/-- Model: `handleLineHeightChange` (lines 170–183). -/
def handleLineHeightChange (s : WidgetState) : WidgetState :=
  let newHeight := cycleLineHeightLevel s.lineHeight
  { s with lineHeight := newHeight,
           bodyClasses := applyLineHeightClass newHeight s.bodyClasses }

/-- Model: `handleSpeechRateChange` (lines 294–299). -/
def handleSpeechRateChange (s : WidgetState) : WidgetState :=
  { s with speechRate := cycleSpeechRateValue s.speechRate }

/-- Model: `availableRomanianVoices.indexOf(selectedVoice)`: `-1` when the
selection is `null` or not an element of the list. -/
def selectedVoiceIndex (sel : Option String) (voices : List String) : Int :=
  match sel with
  | none => -1
  | some v => jsIndexOf v voices

/-- Core of `handleVoiceChange` (lines 302–308): a no-op on lists of at
most one voice, else `voices[(indexOf(selected) + 1) % voices.length]`. -/
def nextVoiceSelection (voices : List String) (sel : Option String) : Option String :=
  if voices.length ≤ 1 then sel
  else
    some (voices.getD ((selectedVoiceIndex sel voices + 1) % (voices.length : Int)).toNat "")

/-- Model: `handleVoiceChange` as a state transition. -/
def handleVoiceChange (s : WidgetState) : WidgetState :=
  { s with selectedVoice := nextVoiceSelection s.availableRomanianVoices s.selectedVoice }

/-- Model: `handleReadAloud` (lines 186–291).  `support` models
`'speechSynthesis' in window`; `pageText` models the gathered
`textContent` (the document-order join of the eligible elements' texts).
The toggle branch (already reading) cancels and resets; the start branch
rejects empty text, otherwise flags reading, cancels any previous
speech, and schedules the `speakNext` loop over the computed chunks. -/
def handleReadAloud (support : Bool) (pageText : List Char) (s : WidgetState) :
    WidgetState × List Cmd :=
  if !support then (s, [Cmd.alertUnsupported])
  else if s.isReading then
    ({ s with isReading := false, isReadingRef := false,
              readingProgress := 0, currentUtterance := none },
     [Cmd.cancel])
  else if pageText.isEmpty then (s, [Cmd.alertNoContent])
  else
    ({ s with isReading := true, isReadingRef := true, readingProgress := 0 },
     [Cmd.cancel, Cmd.schedule (chunksOf pageText)])

/-- Model: `resetAllSettings` (lines 372–394). -/
def resetAllSettings (s : WidgetState) : WidgetState × List Cmd :=
  let base := { s with fontSize := 0, highContrast := false, lineHeight := 0,
                       speechRate := 8, speechPitch := 10 }
  let (s1, cmds) :=
    if s.isReading then
      ({ base with isReading := false, isReadingRef := false, readingProgress := 0 },
       [Cmd.cancel])
    else (base, ([] : List Cmd))
  ({ s1 with bodyClasses := removeAllA11yClasses s1.bodyClasses }, cmds)

/-! ## Keyboard accessibility (`handleKeyDown`, lines 364–369, and the
per-button `onClick`/`onKeyDown` wiring) -/

/-- The interactive controls of the panel. -/
inductive Control
  | panelToggle
  | fontSizeBtn
  | contrastBtn
  | lineHeightBtn
  | readAloudBtn
  | speechRateBtn
  | voiceBtn
  | resetBtn
deriving DecidableEq, Repr

/-- Model: `handleKeyDown(e, action)`: run `action` exactly on Enter or Space,
otherwise leave the state alone. -/
def handleKeyDown (key : String) (action : WidgetState → WidgetState × List Cmd)
    (s : WidgetState) : WidgetState × List Cmd :=
  if key = "Enter" ∨ key = " " then action s else (s, [])

/-- Each control's `onClick` handler, as wired in the render tree
(lines 603–898). -/
def onClick (support : Bool) (pageText : List Char) :
    Control → WidgetState → WidgetState × List Cmd
  | Control.panelToggle => fun s => ({ s with isPanelOpen := !s.isPanelOpen }, [])
  | Control.fontSizeBtn => fun s => (handleFontSizeChange s, [])
  | Control.contrastBtn => fun s => (handleContrastToggle s, [])
  | Control.lineHeightBtn => fun s => (handleLineHeightChange s, [])
  | Control.readAloudBtn => fun s => handleReadAloud support pageText s
  | Control.speechRateBtn => fun s => (handleSpeechRateChange s, [])
  | Control.voiceBtn => fun s => (handleVoiceChange s, [])
  | Control.resetBtn => fun s => resetAllSettings s

/-- Each control's `onKeyDown` handler: every button passes the same
action it passes to `onClick` through `handleKeyDown`
(`onKeyDown: (e) => handleKeyDown(e, action)` on lines 620, 651, 687,
727, 763, 806, 840, 875). -/
def onKeyDown (support : Bool) (pageText : List Char) :
    Control → String → WidgetState → WidgetState × List Cmd
  | Control.panelToggle => fun k =>
      handleKeyDown k (fun s => ({ s with isPanelOpen := !s.isPanelOpen }, []))
  | Control.fontSizeBtn => fun k =>
      handleKeyDown k (fun s => (handleFontSizeChange s, []))
  | Control.contrastBtn => fun k =>
      handleKeyDown k (fun s => (handleContrastToggle s, []))
  | Control.lineHeightBtn => fun k =>
      handleKeyDown k (fun s => (handleLineHeightChange s, []))
  | Control.readAloudBtn => fun k =>
      handleKeyDown k (fun s => handleReadAloud support pageText s)
  | Control.speechRateBtn => fun k =>
      handleKeyDown k (fun s => (handleSpeechRateChange s, []))
  | Control.voiceBtn => fun k =>
      handleKeyDown k (fun s => (handleVoiceChange s, []))
  | Control.resetBtn => fun k =>
      handleKeyDown k (fun s => resetAllSettings s)

/-! ## The per-session `speakNext` loop (lines 235–277) as an
event-driven machine.

A session is the closure state created by one `start()`: the captured
`chunks` and `currentIndex`, together with the `isReadingRef` flag
(`active`), whether an utterance has been dispatched and has not yet
ended or errored (`outstanding`), and whether a `setTimeout(speakNext)`
is pending (`pendingTimer`).  Engine callbacks and timer expiry are the
events; dispatching chunk `i` to `speechSynthesis.speak` is recorded by
emitting `i` (the utterance text is `chunks[i]`). -/

structure SessState where
  chunks : List (List Char)
  idx : Nat
  active : Bool
  outstanding : Bool
  pendingTimer : Bool
deriving DecidableEq, Repr

/-- The events that resume or interfere with the session: this session's
own timer expiry and engine callbacks, plus the two writes to the shared
`isReadingRef` performed by a later `handleReadAloud` call — the stop
branch clears the ref (line 195) and the start branch of a fresh session
sets it (line 280).  `isReadingRef` is one `React.useRef` cell shared by
every session's closures, and the code never calls `clearTimeout`, so
these writes are observed by this session's still-pending callbacks. -/
inductive SEvent
  | timerFire
  | utterEnd
  | utterError
  | refSetFalse
  | refSetTrue
deriving DecidableEq, Repr

/-- One step of the session machine, returning the indices dispatched to
`speechSynthesis.speak` during the step.

* `timerFire` runs `speakNext`: if `currentIndex < chunks.length &&
  isReadingRef.current`, dispatch chunk `currentIndex`.
* `utterEnd` runs `utterance.onend`: `currentIndex++`; if more chunks
  remain and the ref is still set, schedule the next `speakNext`, else
  clear the reading flag (and the widget sets progress to 100).
* `utterError` runs `utterance.onerror`: clear the reading flag.
* `refSetFalse` / `refSetTrue` are the shared-ref writes of a later
  `handleReadAloud` call (stop branch / fresh start); they touch nothing
  of this session but the flag its guards read. -/
def sessStep (s : SessState) : SEvent → SessState × List Nat
  | SEvent.timerFire =>
    let s1 := { s with pendingTimer := false }
    if s1.idx < s1.chunks.length ∧ s1.active = true then
      ({ s1 with outstanding := true }, [s1.idx])
    else (s1, [])
  | SEvent.utterEnd =>
    let s1 := { s with outstanding := false, idx := s.idx + 1 }
    if s1.idx < s1.chunks.length ∧ s1.active = true then
      ({ s1 with pendingTimer := true }, [])
    else ({ s1 with active := false }, [])
  | SEvent.utterError => ({ s with outstanding := false, active := false }, [])
  | SEvent.refSetFalse => ({ s with active := false }, [])
  | SEvent.refSetTrue => ({ s with active := true }, [])

/-- An event can only occur when its source is armed: the timer only
fires while scheduled, and end/error callbacks only arrive for a
dispatched, unfinished utterance.  The shared-ref writes are driven by
user clicks, not by this session's state, so they are always possible. -/
def legalEvent (s : SessState) : SEvent → Bool
  | SEvent.timerFire => s.pendingTimer
  | SEvent.utterEnd => s.outstanding
  | SEvent.utterError => s.outstanding
  | SEvent.refSetFalse => true
  | SEvent.refSetTrue => true

/-- A whole event trace is legal from `s`. -/
def legalTrace : SessState → List SEvent → Bool
  | _, [] => true
  | s, e :: es => legalEvent s e && legalTrace (sessStep s e).1 es

/-- Run a trace, accumulating every dispatched chunk index in order. -/
def sessRun : SessState → List SEvent → SessState × List Nat
  | s, [] => (s, [])
  | s, e :: es =>
    ((sessRun (sessStep s e).1 es).1,
     (sessStep s e).2 ++ (sessRun (sessStep s e).1 es).2)

/-- The session state right after the start branch of `handleReadAloud`:
`currentIndex = 0`, ref set, no utterance yet, the initial
`setTimeout(speakNext, 100)` pending. -/
def sessInit (chunks : List (List Char)) : SessState :=
  { chunks := chunks, idx := 0, active := true, outstanding := false, pendingTimer := true }

/-! ## Helper lemmas -/

/-- A function with `f^[p] x = x` satisfies `f^[p * n] x = x`. -/
theorem iterate_fixed_mul {α : Type} (f : α → α) (p : Nat) (x : α)
    (h : f^[p] x = x) : ∀ n, f^[p * n] x = x := by
  intro n
  induction n with
  | zero => simp
  | succ k ih => rw [Nat.mul_succ, Function.iterate_add_apply, h, ih]

/-! ## C4 -/

/-- C4: for every legal starting level the font-size cycle has order 3,
as do the line-height cycle; the speech-rate cycle has order 4 over the
rate set `{0.6, 0.8, 1.0, 1.2}` and the contrast toggle has order 2. -/
theorem settings_cycle_orders (n : Nat) :
    (∀ l, l < 3 → cycleFontSizeLevel^[3 * n] l = l) ∧
    (∀ l, l < 3 → cycleLineHeightLevel^[3 * n] l = l) ∧
    (∀ r, r ∈ speechRates → cycleSpeechRateValue^[4 * n] r = r) ∧
    (∀ b, toggleContrastValue^[2 * n] b = b) := by
  refine ⟨?_, ?_, ?_, ?_⟩
  · intro l hl
    apply iterate_fixed_mul
    interval_cases l <;> rfl
  · intro l hl
    apply iterate_fixed_mul
    interval_cases l <;> rfl
  · intro r hr
    apply iterate_fixed_mul
    fin_cases hr <;> rfl
  · intro b
    apply iterate_fixed_mul
    cases b <;> rfl

/-- Witness for C4 at concrete levels, rate and flag (with `n = 2`). -/
theorem settings_cycle_orders_witness :
    ((1 : Nat) < 3 ∧ cycleFontSizeLevel^[3 * 2] 1 = 1) ∧
    ((2 : Nat) < 3 ∧ cycleLineHeightLevel^[3 * 2] 2 = 2) ∧
    ((8 : Nat) ∈ speechRates ∧ cycleSpeechRateValue^[4 * 2] 8 = 8) ∧
    (toggleContrastValue^[2 * 2] true = true) :=
  ⟨⟨by decide, (settings_cycle_orders 2).1 1 (by decide)⟩,
   ⟨by decide, (settings_cycle_orders 2).2.1 2 (by decide)⟩,
   ⟨by decide, (settings_cycle_orders 2).2.2.1 8 (by decide)⟩,
   (settings_cycle_orders 2).2.2.2 true⟩

/-! ## C10 -/

/-- C10: voice cycling is total and stays inside the filtered list: with
at most one voice it leaves the selection unchanged; with at least two
voices the new selection is an element of the list, and when the current
selection has index `-1` the first voice is selected. -/
theorem voice_cycle_safe (voices : List String) (sel : Option String) :
    (voices.length ≤ 1 → nextVoiceSelection voices sel = sel) ∧
    (2 ≤ voices.length →
      ∃ v, nextVoiceSelection voices sel = some v ∧ v ∈ voices) ∧
    (2 ≤ voices.length → selectedVoiceIndex sel voices = -1 →
      nextVoiceSelection voices sel = voices.head?) := by
  refine ⟨?_, ?_, ?_⟩
  · intro h
    simp [nextVoiceSelection, h]
  · intro h2
    have hnot : ¬ voices.length ≤ 1 := by omega
    have hpos : (0 : Int) < (voices.length : Int) := by
      exact_mod_cast Nat.lt_of_lt_of_le (by norm_num) h2
    have hnn : 0 ≤ (selectedVoiceIndex sel voices + 1) % (voices.length : Int) :=
      Int.emod_nonneg _ (by omega)
    have hlt : (selectedVoiceIndex sel voices + 1) % (voices.length : Int) <
        (voices.length : Int) := Int.emod_lt_of_pos _ hpos
    set i : Nat := ((selectedVoiceIndex sel voices + 1) % (voices.length : Int)).toNat with hi
    have hcast : (i : Int) = (selectedVoiceIndex sel voices + 1) % (voices.length : Int) :=
      Int.toNat_of_nonneg hnn
    have hbound : i < voices.length := by omega
    have hget : voices.getD i "" = voices.get ⟨i, hbound⟩ := by
      rw [List.getD_eq_getElem?_getD, List.getElem?_eq_getElem hbound]
      rfl
    refine ⟨voices.getD i "", ?_, ?_⟩
    · simp [nextVoiceSelection, hnot]
    · rw [hget]
      exact voices.get_mem i hbound
  · intro h2 hidx
    have hnot : ¬ voices.length ≤ 1 := by omega
    match voices, h2 with
    | v0 :: v1 :: rest, _ =>
      simp [nextVoiceSelection, hidx]

/-- Witness for C10: a two-voice list with a stale selection, and a
one-voice list. -/
theorem voice_cycle_safe_witness :
    (2 ≤ (["Ioana", "Emil"] : List String).length ∧
      ∃ v, nextVoiceSelection ["Ioana", "Emil"] (some "gone") = some v ∧
        v ∈ (["Ioana", "Emil"] : List String)) ∧
    (selectedVoiceIndex (some "gone") ["Ioana", "Emil"] = -1 ∧
      nextVoiceSelection ["Ioana", "Emil"] (some "gone") =
        (["Ioana", "Emil"] : List String).head?) ∧
    ((["Solo"] : List String).length ≤ 1 ∧
      nextVoiceSelection ["Solo"] (some "gone") = some "gone") :=
  ⟨⟨by decide, (voice_cycle_safe ["Ioana", "Emil"] (some "gone")).2.1 (by decide)⟩,
   ⟨by decide,
    (voice_cycle_safe ["Ioana", "Emil"] (some "gone")).2.2 (by decide) (by decide)⟩,
   ⟨by decide, (voice_cycle_safe ["Solo"] (some "gone")).1 (by decide)⟩⟩

/-! ## C6 -/

/-- Adding a class makes it present. -/
theorem mem_classListAdd_self (c : String) (l : List String) :
    c ∈ classListAdd c l := by
  unfold classListAdd
  split
  · assumption
  · simp

/-- Adding a different class does not affect membership of `c`. -/
theorem mem_classListAdd_iff (c d : String) (l : List String) (h : c ≠ d) :
    c ∈ classListAdd d l ↔ c ∈ l := by
  unfold classListAdd
  split
  · exact Iff.rfl
  · simp [h]

/-- Removing a class makes it absent. -/
theorem not_mem_classListRemove_self (c : String) (l : List String) :
    c ∉ classListRemove c l := by
  simp [classListRemove, List.mem_filter]

/-- Removing a different class does not affect membership of `c`. -/
theorem mem_classListRemove_iff (c d : String) (l : List String) (h : c ≠ d) :
    c ∈ classListRemove d l ↔ c ∈ l := by
  simp [classListRemove, List.mem_filter, h]

/-- C6: with settings `{fontSizeLevel = 1 (Large), highContrast = true,
lineHeightLevel = 0 (Normal)}`, applying the three class helpers to any
starting body class list leaves exactly the recognized classes
`font-size-larger` and `high-contrast` present: `font-size-largest` and
both line-height classes are absent. -/
theorem apply_large_contrast_normal (cl : List String) :
    ("font-size-larger" ∈ applyAllSettings 1 true 0 cl) ∧
    ("high-contrast" ∈ applyAllSettings 1 true 0 cl) ∧
    ("font-size-largest" ∉ applyAllSettings 1 true 0 cl) ∧
    ("line-height-larger" ∉ applyAllSettings 1 true 0 cl) ∧
    ("line-height-largest" ∉ applyAllSettings 1 true 0 cl) := by
  have hform : applyAllSettings 1 true 0 cl =
      classListRemove "line-height-largest" (classListRemove "line-height-larger"
        (classListAdd "high-contrast" (classListAdd "font-size-larger"
          (classListRemove "font-size-largest" (classListRemove "font-size-larger" cl))))) := by
    simp [applyAllSettings, applyFontSizeClass, applyHighContrastClass, applyLineHeightClass]
  rw [hform]
  refine ⟨?_, ?_, ?_, ?_, ?_⟩
  · rw [mem_classListRemove_iff _ _ _ (by decide),
        mem_classListRemove_iff _ _ _ (by decide),
        mem_classListAdd_iff _ _ _ (by decide)]
    exact mem_classListAdd_self _ _
  · rw [mem_classListRemove_iff _ _ _ (by decide),
        mem_classListRemove_iff _ _ _ (by decide)]
    exact mem_classListAdd_self _ _
  · rw [mem_classListRemove_iff _ _ _ (by decide),
        mem_classListRemove_iff _ _ _ (by decide),
        mem_classListAdd_iff _ _ _ (by decide),
        mem_classListAdd_iff _ _ _ (by decide)]
    exact not_mem_classListRemove_self _ _
  · rw [mem_classListRemove_iff _ _ _ (by decide)]
    exact not_mem_classListRemove_self _ _
  · exact not_mem_classListRemove_self _ _

/-- Witness for C6 at a concrete starting class list. -/
theorem apply_large_contrast_normal_witness :
    ("font-size-larger" ∈ applyAllSettings 1 true 0 ["x", "line-height-larger"]) ∧
    ("high-contrast" ∈ applyAllSettings 1 true 0 ["x", "line-height-larger"]) ∧
    ("font-size-largest" ∉ applyAllSettings 1 true 0 ["x", "line-height-larger"]) ∧
    ("line-height-larger" ∉ applyAllSettings 1 true 0 ["x", "line-height-larger"]) ∧
    ("line-height-largest" ∉ applyAllSettings 1 true 0 ["x", "line-height-larger"]) :=
  apply_large_contrast_normal ["x", "line-height-larger"]

/-! ## C3 -/

/-- C3 counterexample: a parsed record whose `fontSize` field holds the
illegal value `7` is adopted verbatim by the load effect, so afterwards
`fontSize` is not in `{0, 1, 2}` — the claim that every illegal field is
replaced by its default is false. -/
theorem load_illegal_value_cex :
    (loadSettings (some (some { fontSize := some (JSVal.num 7) })) =
      { fontSize := JSVal.num 7, highContrast := JSVal.bool false,
        lineHeight := JSVal.num 0 }) ∧
    legalSettings (loadSettings (some (some { fontSize := some (JSVal.num 7) }))) = false := by
  constructor <;> rfl

/-- C3 (amended): `load()` is total; a missing key or unparsable record
yields the defaults and every absent field keeps its default, but every
present field is adopted verbatim without validation — the loaded record
is legal exactly when every stored present field was legal. -/
theorem load_defaults_amended :
    (loadSettings none = defaultSettings) ∧
    (loadSettings (some none) = defaultSettings) ∧
    (∀ r : StoredRec, r.fontSize = none →
      (loadSettings (some (some r))).fontSize = JSVal.num 0) ∧
    (∀ r : StoredRec, r.highContrast = none →
      (loadSettings (some (some r))).highContrast = JSVal.bool false) ∧
    (∀ r : StoredRec, r.lineHeight = none →
      (loadSettings (some (some r))).lineHeight = JSVal.num 0) ∧
    (∀ r : StoredRec, ∀ v, r.fontSize = some v →
      (loadSettings (some (some r))).fontSize = v) ∧
    (∀ r : StoredRec, ∀ v, r.highContrast = some v →
      (loadSettings (some (some r))).highContrast = v) ∧
    (∀ r : StoredRec, ∀ v, r.lineHeight = some v →
      (loadSettings (some (some r))).lineHeight = v) ∧
    (∀ r : StoredRec,
      (∀ v, r.fontSize = some v → legalLevelVal v = true) →
      (∀ v, r.highContrast = some v → isBoolVal v = true) →
      (∀ v, r.lineHeight = some v → legalLevelVal v = true) →
      legalSettings (loadSettings (some (some r))) = true) := by
  refine ⟨rfl, rfl, ?_, ?_, ?_, ?_, ?_, ?_, ?_⟩
  · intro r h; simp [loadSettings, h]
  · intro r h; simp [loadSettings, h]
  · intro r h; simp [loadSettings, h]
  · intro r v h; simp [loadSettings, h]
  · intro r v h; simp [loadSettings, h]
  · intro r v h; simp [loadSettings, h]
  · intro r hf hc hl
    simp only [legalSettings, loadSettings, Bool.and_eq_true]
    refine ⟨⟨?_, ?_⟩, ?_⟩
    · cases h : r.fontSize with
      | none => simp [h]; rfl
      | some v => simpa [h] using hf v h
    · cases h : r.highContrast with
      | none => simp [h]; rfl
      | some v => simpa [h] using hc v h
    · cases h : r.lineHeight with
      | none => simp [h]; rfl
      | some v => simpa [h] using hl v h

/-- Witness for C3 (amended): the empty stored record loads to legal
defaults. -/
theorem load_defaults_amended_witness :
    ((loadSettings (some (some ({} : StoredRec)))).fontSize = JSVal.num 0) ∧
    (legalSettings (loadSettings (some (some ({} : StoredRec)))) = true) :=
  ⟨load_defaults_amended.2.2.1 {} rfl,
   load_defaults_amended.2.2.2.2.2.2.2.2 {}
     (fun _ hv => nomatch hv) (fun _ hv => nomatch hv) (fun _ hv => nomatch hv)⟩

/-! ## C5 -/

/-- C5: invoking the read-aloud action from a Speaking state
synchronously sets the status to Idle and the progress to `0`, clears
the current utterance, and requests engine cancellation in the same step;
the resulting state does not depend on any later engine callback. -/
theorem stop_sync_idle (pageText : List Char) (s : WidgetState)
    (h : s.isReading = true) :
    handleReadAloud true pageText s =
      ({ s with isReading := false, isReadingRef := false,
                readingProgress := 0, currentUtterance := none },
       [Cmd.cancel]) := by
  simp [handleReadAloud, h]

/-- Witness for C5: a concrete Speaking state. -/
theorem stop_sync_idle_witness :
    (({ isReading := true, isReadingRef := true,
        readingProgress := 55 } : WidgetState).isReading = true) ∧
    handleReadAloud true ['x']
        { isReading := true, isReadingRef := true, readingProgress := 55 } =
      ({ ({ isReading := true, isReadingRef := true,
            readingProgress := 55 } : WidgetState) with
          isReading := false, isReadingRef := false, readingProgress := 0,
          currentUtterance := none }, [Cmd.cancel]) :=
  ⟨rfl, stop_sync_idle ['x'] _ rfl⟩

/-! ## C7 -/

/-- C7: starting from a legal settings state, after any committed
settings mutation (font-size cycle, contrast toggle, line-height cycle,
or reset) the save effect writes a single record with exactly the three
fields under the single key `accessibilitySettings`, and the written
level values are again in `{0, 1, 2}`. -/
theorem persisted_shape (s : WidgetState) (h1 : s.fontSize < 3)
    (h2 : s.lineHeight < 3) (s' : WidgetState)
    (hmut : s' = handleFontSizeChange s ∨ s' = handleContrastToggle s ∨
            s' = handleLineHeightChange s ∨ s' = (resetAllSettings s).1) :
    saveSettingsEffect s' = ("accessibilitySettings",
      { fontSize := s'.fontSize, highContrast := s'.highContrast,
        lineHeight := s'.lineHeight }) ∧
    s'.fontSize < 3 ∧ s'.lineHeight < 3 := by
  refine ⟨rfl, ?_⟩
  rcases hmut with h | h | h | h <;> subst h
  · exact ⟨Nat.mod_lt _ (by omega), h2⟩
  · exact ⟨h1, h2⟩
  · exact ⟨h1, Nat.mod_lt _ (by omega)⟩
  · constructor <;> · simp only [resetAllSettings]
                      split <;> simp

/-- Witness for C7: the default state mutated by a font-size cycle. -/
theorem persisted_shape_witness :
    (({} : WidgetState).fontSize < 3) ∧ (({} : WidgetState).lineHeight < 3) ∧
    (saveSettingsEffect (handleFontSizeChange {}) = ("accessibilitySettings",
      { fontSize := (handleFontSizeChange {}).fontSize,
        highContrast := (handleFontSizeChange {}).highContrast,
        lineHeight := (handleFontSizeChange {}).lineHeight }) ∧
      (handleFontSizeChange ({} : WidgetState)).fontSize < 3 ∧
      (handleFontSizeChange ({} : WidgetState)).lineHeight < 3) :=
  ⟨by decide, by decide,
   persisted_shape {} (by decide) (by decide) _ (Or.inl rfl)⟩

/-! ## C2 -/

/-- A session whose reading flag is cleared stays cleared and dispatches
nothing in one step, as long as the step is not the shared-ref write of
a fresh start. -/
theorem sessStep_inactive (s : SessState) (h : s.active = false) (e : SEvent)
    (hne : e ≠ SEvent.refSetTrue) :
    (sessStep s e).1.active = false ∧ (sessStep s e).2 = [] := by
  cases e <;> first
    | exact absurd rfl hne
    | simp [sessStep, h]

/-- A session whose reading flag is cleared never dispatches another
chunk, whatever legal events still arrive, provided no fresh start
re-sets the shared flag in the meantime. -/
theorem sessRun_inactive (tr : List SEvent) :
    ∀ s : SessState, SEvent.refSetTrue ∉ tr → s.active = false →
      (sessRun s tr).2 = [] := by
  induction tr with
  | nil => intro s _ _; rfl
  | cons e es ih =>
    intro s hno h
    have hne : e ≠ SEvent.refSetTrue := by
      intro he
      exact hno (he ▸ List.mem_cons_self e es)
    have hes : SEvent.refSetTrue ∉ es := by
      intro hm
      exact hno (List.mem_cons_of_mem e hm)
    have h1 := sessStep_inactive s h e hne
    show (sessStep s e).2 ++ (sessRun (sessStep s e).1 es).2 = []
    rw [h1.2, ih _ hes h1.1]
    rfl

/-- C2 counterexample: from a Speaking state the read-aloud action does
not proceed as a fresh `start()`: the resulting status is Idle (no
session is active afterwards, rather than exactly one) and the only
engine command is the cancellation — no chunk list is scheduled. -/
theorem reentrant_start_cex :
    ((handleReadAloud true ("Salut. Bine.".data)
        { isReading := true, isReadingRef := true,
          readingProgress := 40 }).1.isReading = false) ∧
    ((handleReadAloud true ("Salut. Bine.".data)
        { isReading := true, isReadingRef := true,
          readingProgress := 40 }).2 = [Cmd.cancel]) := by
  constructor <;> rfl

/-- C2 (amended): invoking the read-aloud action while Speaking performs
only the implicit stop (toggle semantics), not a fresh start: afterwards
no session is active (status Idle, progress 0), the engine is cancelled
synchronously and nothing is scheduled.  While the shared reading flag
stays cleared — no fresh start intervening — the stopped session
dispatches nothing; but the stop clears no pending timer and the flag is
one cell shared by all sessions, so a fresh start arriving inside the
stopped session's surviving inter-chunk timer window re-arms its guard
and that session dispatches one of its remaining chunks (last conjunct:
the concrete revival trace `refSetTrue` then `timerFire` emits chunk 1
of the stopped session). -/
theorem reentrant_start_amended (pageText : List Char) (s : WidgetState)
    (hs : s.isReading = true) (ss : SessState) (tr : List SEvent)
    (ha : ss.active = false) (hnof : SEvent.refSetTrue ∉ tr) :
    ((handleReadAloud true pageText s).1.isReading = false ∧
     (handleReadAloud true pageText s).1.isReadingRef = false ∧
     (handleReadAloud true pageText s).1.readingProgress = 0 ∧
     (handleReadAloud true pageText s).2 = [Cmd.cancel]) ∧
    (sessRun ss tr).2 = [] ∧
    (legalTrace
        { chunks := [['D', 'a', '.'], ['N', 'u', '.']], idx := 1,
          active := false, outstanding := false, pendingTimer := true }
        [SEvent.refSetTrue, SEvent.timerFire] = true ∧
      (sessRun
        { chunks := [['D', 'a', '.'], ['N', 'u', '.']], idx := 1,
          active := false, outstanding := false, pendingTimer := true }
        [SEvent.refSetTrue, SEvent.timerFire]).2 = [1]) := by
  refine ⟨?_, sessRun_inactive tr ss hnof ha, ?_, ?_⟩
  · simp [handleReadAloud, hs]
  · decide
  · decide

/-- Witness for C2 (amended): a concrete Speaking widget state and a
concrete stopped session with a still-pending timer but no intervening
fresh start. -/
theorem reentrant_start_amended_witness :
    (({ isReading := true, isReadingRef := true,
        readingProgress := 40 } : WidgetState).isReading = true) ∧
    (({ chunks := [['a'], ['b']], idx := 1, active := false,
        outstanding := false, pendingTimer := true } : SessState).active = false) ∧
    (SEvent.refSetTrue ∉ [SEvent.timerFire]) ∧
    (((handleReadAloud true ("Da. Nu.".data)
        { isReading := true, isReadingRef := true,
          readingProgress := 40 }).1.isReading = false ∧
      (handleReadAloud true ("Da. Nu.".data)
        { isReading := true, isReadingRef := true,
          readingProgress := 40 }).1.isReadingRef = false ∧
      (handleReadAloud true ("Da. Nu.".data)
        { isReading := true, isReadingRef := true,
          readingProgress := 40 }).1.readingProgress = 0 ∧
      (handleReadAloud true ("Da. Nu.".data)
        { isReading := true, isReadingRef := true,
          readingProgress := 40 }).2 = [Cmd.cancel]) ∧
     (sessRun
        { chunks := [['a'], ['b']], idx := 1, active := false,
          outstanding := false, pendingTimer := true }
        [SEvent.timerFire]).2 = [] ∧
     (legalTrace
        { chunks := [['D', 'a', '.'], ['N', 'u', '.']], idx := 1,
          active := false, outstanding := false, pendingTimer := true }
        [SEvent.refSetTrue, SEvent.timerFire] = true ∧
      (sessRun
        { chunks := [['D', 'a', '.'], ['N', 'u', '.']], idx := 1,
          active := false, outstanding := false, pendingTimer := true }
        [SEvent.refSetTrue, SEvent.timerFire]).2 = [1])) :=
  ⟨rfl, rfl, (by decide),
   reentrant_start_amended ("Da. Nu.".data)
     { isReading := true, isReadingRef := true, readingProgress := 40 } rfl
     { chunks := [['a'], ['b']], idx := 1, active := false,
       outstanding := false, pendingTimer := true }
     [SEvent.timerFire] rfl (by decide)⟩

/-! ## C9 -/

/-- Invariant of a running session: the dispatched indices so far are
exactly `0, 1, …` up to the current position (one further when an
utterance is in flight), never exceeding the chunk count, and a timer is
never pending while an utterance is in flight.  The second disjunct is
the error-aborted session: no timer pending and no utterance in flight
remain, so it dispatches nothing further even if the shared flag is
later re-set. -/
def SessInv (s : SessState) (em : List Nat) : Prop :=
  (s.outstanding = true → s.pendingTimer = false) ∧
  ((em = List.range (s.idx + (if s.outstanding then 1 else 0)) ∧
      s.idx + (if s.outstanding then 1 else 0) ≤ s.chunks.length) ∨
   (s.outstanding = false ∧ s.pendingTimer = false ∧
      em = List.range (s.idx + 1) ∧ s.idx + 1 ≤ s.chunks.length))

/-- A step never changes the captured chunk list. -/
theorem sessStep_chunks (s : SessState) (e : SEvent) :
    (sessStep s e).1.chunks = s.chunks := by
  cases e <;> simp only [sessStep] <;> first
    | rfl
    | (split <;> rfl)

/-- A whole run never changes the captured chunk list. -/
theorem sessRun_chunks (tr : List SEvent) :
    ∀ s : SessState, (sessRun s tr).1.chunks = s.chunks := by
  induction tr with
  | nil => intro s; rfl
  | cons e es ih =>
    intro s
    show (sessRun (sessStep s e).1 es).1.chunks = s.chunks
    rw [ih, sessStep_chunks]

/-- Every legal step preserves the session invariant. -/
theorem sessInv_step (s : SessState) (em : List Nat) (e : SEvent)
    (hInv : SessInv s em) (hLegal : legalEvent s e = true) :
    SessInv (sessStep s e).1 (em ++ (sessStep s e).2) := by
  obtain ⟨hOut, hCases⟩ := hInv
  cases e with
  | timerFire =>
    have hTimer : s.pendingTimer = true := hLegal
    have hNoOut : s.outstanding = false := by
      cases h : s.outstanding with
      | false => rfl
      | true => rw [hOut h] at hTimer; cases hTimer
    rcases hCases with ⟨hem, hle⟩ | ⟨_, hpt, _, _⟩
    · rw [hNoOut] at hem hle
      simp only [if_neg Bool.false_ne_true] at hem hle
      simp only [sessStep]
      split
    -- dispatch branch: emit the current index
      · rename_i hcond
        refine ⟨fun _ => rfl, Or.inl ⟨?_, ?_⟩⟩
        · simp [hem, List.range_succ]
        · simpa using hcond.1
      · refine ⟨fun _ => rfl, Or.inl ⟨?_, ?_⟩⟩
        · simpa [hNoOut] using hem
        · simpa [hNoOut] using hle
    · rw [hpt] at hTimer; cases hTimer
  | utterEnd =>
    have hIsOut : s.outstanding = true := hLegal
    rcases hCases with ⟨hem, hle⟩ | ⟨hno, _, _, _⟩
    · rw [hIsOut] at hem hle
      simp only [if_pos rfl] at hem hle
      simp only [sessStep]
      split
      · refine ⟨?_, Or.inl ⟨?_, ?_⟩⟩
        · intro hfalse
          cases hfalse
        · simpa using hem
        · rename_i hcond
          have h1 : s.idx + 1 < s.chunks.length := by simpa using hcond.1
          show s.idx + 1 + (if false = true then 1 else 0) ≤ s.chunks.length
          simp only [Bool.false_eq_true, if_false]
          omega
      · refine ⟨?_, Or.inl ⟨?_, ?_⟩⟩
        · intro hfalse
          cases hfalse
        · simpa using hem
        · simpa using hle
    · rw [hno] at hIsOut; cases hIsOut
  | utterError =>
    have hIsOut : s.outstanding = true := hLegal
    rcases hCases with ⟨hem, hle⟩ | ⟨hno, _, _, _⟩
    · rw [hIsOut] at hem hle
      simp only [if_pos rfl] at hem hle
      refine ⟨?_, Or.inr ⟨rfl, hOut hIsOut, ?_, ?_⟩⟩
      · intro hfalse
        cases hfalse
      · simpa [sessStep] using hem
      · simpa [sessStep] using hle
    · rw [hno] at hIsOut; cases hIsOut
  | refSetFalse =>
    rcases hCases with ⟨hem, hle⟩ | ⟨hno, hpt, hem, hle⟩
    · refine ⟨hOut, Or.inl ⟨?_, ?_⟩⟩
      · simpa [sessStep] using hem
      · simpa [sessStep] using hle
    · refine ⟨hOut, Or.inr ⟨hno, hpt, ?_, ?_⟩⟩
      · simpa [sessStep] using hem
      · simpa [sessStep] using hle
  | refSetTrue =>
    rcases hCases with ⟨hem, hle⟩ | ⟨hno, hpt, hem, hle⟩
    · refine ⟨hOut, Or.inl ⟨?_, ?_⟩⟩
      · simpa [sessStep] using hem
      · simpa [sessStep] using hle
    · refine ⟨hOut, Or.inr ⟨hno, hpt, ?_, ?_⟩⟩
      · simpa [sessStep] using hem
      · simpa [sessStep] using hle

/-- The invariant holds after any legal run. -/
theorem sessRun_inv (tr : List SEvent) :
    ∀ (s : SessState) (em : List Nat), SessInv s em →
      legalTrace s tr = true →
      SessInv (sessRun s tr).1 (em ++ (sessRun s tr).2) := by
  induction tr with
  | nil =>
    intro s em h _
    simpa [sessRun]
  | cons e es ih =>
    intro s em h hl
    rw [legalTrace, Bool.and_eq_true] at hl
    have hstep := sessInv_step s em e h hl.1
    have hrec := ih (sessStep s e).1 (em ++ (sessStep s e).2) hstep hl.2
    show SessInv (sessRun (sessStep s e).1 es).1
      (em ++ ((sessStep s e).2 ++ (sessRun (sessStep s e).1 es).2))
    rwa [← List.append_assoc]

/-- C9: during a playback session, the indices dispatched to the speech
engine along any legal event trace are exactly `0, 1, …, k-1` in order
for some `k` at most the chunk count — chunk `i+1` is only ever
dispatched after chunk `i`'s end callback — and whenever an utterance is
in flight no timer is pending, so no second dispatch can occur before
its end or error callback fires. -/
theorem sequential_dispatch (chunks : List (List Char)) (tr : List SEvent)
    (h : legalTrace (sessInit chunks) tr = true) :
    (∃ k, k ≤ chunks.length ∧ (sessRun (sessInit chunks) tr).2 = List.range k) ∧
    ((sessRun (sessInit chunks) tr).1.outstanding = true →
      (sessRun (sessInit chunks) tr).1.pendingTimer = false) := by
  have hinit : SessInv (sessInit chunks) [] := by
    refine ⟨?_, Or.inl ⟨?_, ?_⟩⟩
    · intro hfalse
      cases hfalse
    · simp [sessInit]
    · simp [sessInit]
  have hrun := sessRun_inv tr (sessInit chunks) [] hinit h
  have hch : (sessRun (sessInit chunks) tr).1.chunks = chunks :=
    sessRun_chunks tr (sessInit chunks)
  obtain ⟨hOut, hCases⟩ := hrun
  refine ⟨?_, hOut⟩
  rcases hCases with ⟨hem, hle⟩ | ⟨_, _, hem, hle⟩
  · refine ⟨(sessRun (sessInit chunks) tr).1.idx +
      (if (sessRun (sessInit chunks) tr).1.outstanding = true then 1 else 0), ?_, ?_⟩
    · rw [hch] at hle
      exact hle
    · simpa using hem
  · refine ⟨(sessRun (sessInit chunks) tr).1.idx + 1, ?_, ?_⟩
    · rw [hch] at hle
      exact hle
    · simpa using hem

/-- Witness for C9: a full two-chunk session trace. -/
theorem sequential_dispatch_witness :
    (legalTrace (sessInit [['a'], ['b']])
      [SEvent.timerFire, SEvent.utterEnd, SEvent.timerFire, SEvent.utterEnd] = true) ∧
    ((∃ k, k ≤ ([['a'], ['b']] : List (List Char)).length ∧
      (sessRun (sessInit [['a'], ['b']])
        [SEvent.timerFire, SEvent.utterEnd, SEvent.timerFire,
         SEvent.utterEnd]).2 = List.range k) ∧
     ((sessRun (sessInit [['a'], ['b']])
        [SEvent.timerFire, SEvent.utterEnd, SEvent.timerFire,
         SEvent.utterEnd]).1.outstanding = true →
      (sessRun (sessInit [['a'], ['b']])
        [SEvent.timerFire, SEvent.utterEnd, SEvent.timerFire,
         SEvent.utterEnd]).1.pendingTimer = false)) :=
  ⟨by decide,
   sequential_dispatch [['a'], ['b']]
     [SEvent.timerFire, SEvent.utterEnd, SEvent.timerFire, SEvent.utterEnd]
     (by decide)⟩

/-! ## C1 -/

/-- C1 counterexample: a page text of 249 characters with plenty of word
boundaries but no sentence terminator is matched as a single "sentence"
and emitted as one 248-character chunk (after the trim), exceeding the
200-character maximum — no word-boundary hard-split happens. -/
theorem chunk_length_cex :
    ((chunksOf ((List.replicate 83 ['a', 'b', ' ']).flatten)).map List.length
      = [248]) ∧
    ((chunksOf ((List.replicate 83 ['a', 'b', ' ']).flatten)).any
      (fun c => decide (200 < c.length)) = true) := by
  constructor <;> · set_option maxRecDepth 10000 in decide

/-- Trimming never lengthens a string. -/
theorem jsTrim_length_le (l : List Char) : (jsTrim l).length ≤ l.length := by
  unfold jsTrim
  have h1 : (l.dropWhile isJsSpace).length ≤ l.length := length_dropWhile_le _ _
  have h2 : ((l.dropWhile isJsSpace).reverse.dropWhile isJsSpace).length ≤
      (l.dropWhile isJsSpace).reverse.length := length_dropWhile_le _ _
  simp only [List.length_reverse] at *
  omega

/-- The accumulation loop keeps every produced chunk within the bound as
long as every incoming sentence and the chunk under construction are
within it. -/
theorem buildChunksAux_le (ss : List (List Char)) :
    ∀ (cur : List Char) (acc : List (List Char)),
      (∀ s ∈ ss, s.length ≤ 200) → cur.length ≤ 200 →
      (∀ c ∈ acc, c.length ≤ 200) →
      ∀ c ∈ buildChunksAux ss cur acc, c.length ≤ 200 := by
  induction ss with
  | nil =>
    intro cur acc _ hcur hacc c hc
    unfold buildChunksAux at hc
    split at hc
    · exact hacc c hc
    · rcases List.mem_append.1 hc with h | h
      · exact hacc c h
      · rw [List.mem_singleton.1 h]
        exact le_trans (jsTrim_length_le cur) hcur
  | cons s rest ih =>
    intro cur acc hss hcur hacc c hc
    have hs : s.length ≤ 200 := hss s (List.mem_cons_self s rest)
    have hrest : ∀ x ∈ rest, x.length ≤ 200 :=
      fun x hx => hss x (List.mem_cons_of_mem s hx)
    unfold buildChunksAux at hc
    split at hc
    · refine ih s _ hrest hs ?_ c hc
      intro d hd
      split at hd
      · exact hacc d hd
      · rcases List.mem_append.1 hd with h | h
        · exact hacc d h
        · rw [List.mem_singleton.1 h]
          exact le_trans (jsTrim_length_le cur) hcur
    · rename_i hfit
      refine ih (cur ++ s) acc hrest ?_ hacc c hc
      simpa using Nat.le_of_not_lt hfit

/-- C1 (amended): every chunk respects the 200-character maximum
provided every individual sentence does; a single sentence longer than
the maximum becomes its own chunk, merely trimmed, never hard-split on
word boundaries (so such a chunk exceeds the maximum). -/
theorem chunk_length_amended (sentences : List (List Char))
    (h : ∀ s ∈ sentences, s.length ≤ 200) :
    (∀ c ∈ buildChunks sentences, c.length ≤ 200) ∧
    (∀ s : List Char, 200 < s.length → buildChunks [s] = [jsTrim s]) := by
  constructor
  · intro c hc
    refine buildChunksAux_le sentences [] [] h ?_ ?_ c hc
    · simp
    · intro d hd
      cases hd
  · intro s hlen
    have hne : s.isEmpty = false := by
      cases s with
      | nil => simp at hlen
      | cons a as => rfl
    simp [buildChunks, buildChunksAux, hlen, hne]

/-- Witness for C1 (amended): two short sentences fit in one chunk. -/
theorem chunk_length_amended_witness :
    (∀ s ∈ ([['H', 'i', '.'], ['Y', 'o', '.']] : List (List Char)), s.length ≤ 200) ∧
    (∀ c ∈ buildChunks [['H', 'i', '.'], ['Y', 'o', '.']], c.length ≤ 200) :=
  ⟨by decide,
   (chunk_length_amended [['H', 'i', '.'], ['Y', 'o', '.']] (by decide)).1⟩

/-! ## C8 -/

/-- On the Enter key, `handleKeyDown` runs the wrapped action. -/
theorem handleKeyDown_enter (action : WidgetState → WidgetState × List Cmd)
    (s : WidgetState) : handleKeyDown "Enter" action s = action s := by
  simp [handleKeyDown]

/-- On the Space key, `handleKeyDown` runs the wrapped action. -/
theorem handleKeyDown_space (action : WidgetState → WidgetState × List Cmd)
    (s : WidgetState) : handleKeyDown " " action s = action s := by
  simp [handleKeyDown]

/-- C8: for every interactive control of the panel and every widget
state, a keydown of Enter or of Space runs exactly the click handler of
that control: the resulting state and requested effects coincide. -/
theorem keyboard_click_equiv (support : Bool) (pageText : List Char)
    (c : Control) (s : WidgetState) :
    onKeyDown support pageText c "Enter" s = onClick support pageText c s ∧
    onKeyDown support pageText c " " s = onClick support pageText c s := by
  cases c <;> refine ⟨?_, ?_⟩ <;> simp only [onKeyDown, onClick] <;>
    first
    | exact handleKeyDown_enter _ s
    | exact handleKeyDown_space _ s

/-- Witness for C8 at a concrete control and state. -/
theorem keyboard_click_equiv_witness :
    onKeyDown true ['t'] Control.fontSizeBtn "Enter" {} =
      onClick true ['t'] Control.fontSizeBtn {} ∧
    onKeyDown true ['t'] Control.fontSizeBtn " " {} =
      onClick true ['t'] Control.fontSizeBtn {} :=
  keyboard_click_equiv true ['t'] Control.fontSizeBtn {}

end AccessibilitySidebar
